import Mathlib

/-
Verification of the ClassMate PDF question-answering core
(src/server/services/pdfService.js, src/server/routes/pdfChat.js and the
mongoose schemas in src/server/models/pdfDocument.js) against its
natural-language specification.

The JavaScript is shallowly embedded: pure computations become Lean
functions; the process-wide mutable maps (vectorStores registry, node-cache
query cache, the mongo collection and the uploads directory) become an
explicit `SysState` record threaded through each operation; external
services (the text splitter, the HuggingFace embedding calls wrapped in
MemoryVectorStore, similaritySearch, and the Groq generation chain) are
oracle parameters, since their outputs are network responses the code only
pipes through.  Fallible steps return `Except String`.
-/

deriving instance DecidableEq for Except

namespace ClassMate

/-! ## Chunk data model

`documentChunkSchema` (src/server/models/pdfDocument.js) declares the
persisted shape: `pageContent : String`, `metadata.page : Number`,
`metadata.location.pageNumber : Number`, `embedding : [Number]`.
The in-memory chunks produced by `processPdf` additionally carry
`metadata.source` and `metadata.pageNumber`.  Fields that a given chunk may
or may not carry are `Option`s (`none` models JavaScript `undefined`). -/

structure ChunkMeta where
  source : Option String
  pageNumber : Option Nat
  page : Option Nat
  locationPageNumber : Option Nat
  deriving Repr, DecidableEq

structure Chunk where
  pageContent : String
  metadata : ChunkMeta
  deriving Repr, DecidableEq

/-- List indexing helper: pair every element with its index, starting at `i`
(the JavaScript callbacks receive `(chunk, index)`). -/
def enumFrom {α : Type} : Nat → List α → List (Nat × α)
  | _, [] => []
  | i, a :: as => (i, a) :: enumFrom (i + 1) as

/-! ## Ingestion (processPdf / processChunksInBatches)

`processPdf` splits the extracted text (the splitter is external, its output
is the `docs` list), then maps `docs` to `initialChunks` with
`pageNumber = Math.floor(index / 2) + 1`, then runs
`processChunksInBatches`, which walks the list in slices of 10 and sets
`metadata.page = Math.floor((i + index) / 2) + 1` where `i` is the slice
offset and `index` the position within the slice. -/

def withPage (c : Chunk) (n : Nat) : Chunk :=
  { c with metadata := { c.metadata with page := some n } }

/-- One batch of `processChunksInBatches`: `batch.map((chunk, index) => ...)`
with `page: Math.floor((i + index) / 2) + 1`. -/
def processBatch (i : Nat) (batch : List Chunk) : List Chunk :=
  (enumFrom 0 batch).map (fun p => withPage p.2 ((i + p.1) / 2 + 1))

/-- The `for (let i = 0; i < chunks.length; i += batchSize)` loop of
`processChunksInBatches`, at the only batch size the caller uses (the
default, 10).  The loop consumes at least one chunk per iteration, so the
chunk count is enough fuel. -/
def processChunksInBatchesGo : Nat → List Chunk → Nat → List Chunk
  | 0, _, _ => []
  | _ + 1, [], _ => []
  | fuel + 1, c :: cs, i =>
      processBatch i ((c :: cs).take 10) ++
        processChunksInBatchesGo fuel ((c :: cs).drop 10) (i + 10)

def processChunksInBatches (chunks : List Chunk) : List Chunk :=
  processChunksInBatchesGo chunks.length chunks 0

/-- `docs.map((doc, index) => ({pageContent, metadata: {source,
pageNumber: Math.floor(index / 2) + 1}}))` from `processPdf`. -/
def initialChunks (sourceName : String) (docs : List String) : List Chunk :=
  (enumFrom 0 docs).map (fun p =>
    { pageContent := p.2,
      metadata := { source := some sourceName, pageNumber := some (p.1 / 2 + 1),
                    page := none, locationPageNumber := none } })

/-- The page attribution of a chunk list (the `metadata.page` field written
by `processChunksInBatches`). -/
def chunkPages (l : List Chunk) : List (Option Nat) :=
  l.map (fun c => c.metadata.page)

def chunkPageNums (l : List Chunk) : List Nat :=
  l.filterMap (fun c => c.metadata.page)

/-! ### Flattening the batch loop -/

theorem enumFrom_append {α : Type} (l₁ l₂ : List α) :
    ∀ i, enumFrom i (l₁ ++ l₂) = enumFrom i l₁ ++ enumFrom (i + l₁.length) l₂ := by
  induction l₁ with
  | nil => intro i; simp [enumFrom]
  | cons a as ih =>
      intro i
      show (i, a) :: enumFrom (i + 1) (as ++ l₂) = _
      rw [ih (i + 1)]
      simp only [enumFrom, List.length_cons, List.cons_append]
      have : i + (as.length + 1) = i + 1 + as.length := by omega
      rw [this]

theorem map_enumFrom_add {α β : Type} (f : Nat → α → β) (i : Nat) :
    ∀ (l : List α) (j : Nat),
      (enumFrom j l).map (fun p => f (i + p.1) p.2) =
        (enumFrom (i + j) l).map (fun p => f p.1 p.2) := by
  intro l
  induction l with
  | nil => intro j; simp [enumFrom]
  | cons a as ih =>
      intro j
      simp only [enumFrom, List.map_cons, ih (j + 1)]
      have : i + (j + 1) = i + j + 1 := by omega
      rw [this]

theorem processBatch_eq (i : Nat) (batch : List Chunk) :
    processBatch i batch = (enumFrom i batch).map (fun p => withPage p.2 (p.1 / 2 + 1)) := by
  have h := map_enumFrom_add (fun n c => withPage c (n / 2 + 1)) i batch 0
  simpa [processBatch] using h

theorem processChunksInBatchesGo_eq (n : Nat) :
    ∀ (l : List Chunk), l.length ≤ n → ∀ i,
      processChunksInBatchesGo n l i =
        (enumFrom i l).map (fun p => withPage p.2 (p.1 / 2 + 1)) := by
  induction n with
  | zero =>
      intro l hl i
      have : l = [] := List.length_eq_zero.mp (Nat.le_zero.mp hl)
      subst this
      simp [processChunksInBatchesGo, enumFrom]
  | succ n ih =>
      intro l hl i
      match l with
      | [] => simp [processChunksInBatchesGo, enumFrom]
      | c :: cs =>
          rw [processChunksInBatchesGo]
          by_cases h10 : 10 ≤ (c :: cs).length
          · have htk : ((c :: cs).take 10).length = 10 := by
              rw [List.length_take]; omega
            have hdr : ((c :: cs).drop 10).length ≤ n := by
              rw [List.length_drop]
              simp only [List.length_cons] at hl ⊢
              omega
            rw [processBatch_eq, ih ((c :: cs).drop 10) hdr (i + 10)]
            conv_rhs => rw [← List.take_append_drop 10 (c :: cs)]
            rw [enumFrom_append, List.map_append, htk]
          · have hdr : (c :: cs).drop 10 = [] := by
              apply List.drop_eq_nil_of_le
              omega
            have htk : (c :: cs).take 10 = c :: cs := by
              apply List.take_of_length_le
              omega
            rw [hdr, htk, processBatch_eq]
            cases n <;> simp [processChunksInBatchesGo]

theorem processChunksInBatches_eq (l : List Chunk) :
    processChunksInBatches l =
      (enumFrom 0 l).map (fun p => withPage p.2 (p.1 / 2 + 1)) :=
  processChunksInBatchesGo_eq l.length l (Nat.le_refl _) 0

theorem enumFrom_map {α β : Type} (f : α → β) :
    ∀ (l : List α) (i : Nat),
      enumFrom i (l.map f) = (enumFrom i l).map (fun p => (p.1, f p.2)) := by
  intro l
  induction l with
  | nil => intro i; simp [enumFrom]
  | cons a as ih => intro i; simp [enumFrom, ih]

theorem enumFrom_enumFrom {α : Type} :
    ∀ (l : List α) (i : Nat),
      enumFrom i (enumFrom i l) = (enumFrom i l).map (fun p => (p.1, p)) := by
  intro l
  induction l with
  | nil => intro i; simp [enumFrom]
  | cons a as ih => intro i; simp [enumFrom, ih (i + 1)]

/-- The ingestion pipeline assigns chunk `j` the page `j / 2 + 1` and keeps
the matching `pageNumber` written by `initialChunks`. -/
theorem ingest_eq (src : String) (docs : List String) :
    processChunksInBatches (initialChunks src docs) =
      (enumFrom 0 docs).map (fun p =>
        { pageContent := p.2,
          metadata := { source := some src, pageNumber := some (p.1 / 2 + 1),
                        page := some (p.1 / 2 + 1), locationPageNumber := none } }) := by
  rw [processChunksInBatches_eq, initialChunks, enumFrom_map, enumFrom_enumFrom,
    List.map_map, List.map_map]
  rfl

theorem mem_enumFrom_le {α : Type} :
    ∀ (l : List α) (i : Nat) (p : Nat × α), p ∈ enumFrom i l → i ≤ p.1 := by
  intro l
  induction l with
  | nil => intro i p h; simp [enumFrom] at h
  | cons a as ih =>
      intro i p h
      simp only [enumFrom, List.mem_cons] at h
      rcases h with h | h
      · subst h; exact Nat.le_refl i
      · exact Nat.le_of_lt (Nat.lt_of_lt_of_le (Nat.lt_succ_self i) (ih (i + 1) p h))

theorem pairwise_enumFrom {α : Type} :
    ∀ (l : List α) (i : Nat),
      (enumFrom i l).Pairwise (fun p q => p.1 < q.1) := by
  intro l
  induction l with
  | nil => intro i; simp [enumFrom]
  | cons a as ih =>
      intro i
      simp only [enumFrom, List.pairwise_cons]
      refine ⟨fun q hq => ?_, ih (i + 1)⟩
      exact Nat.lt_of_lt_of_le (Nat.lt_succ_self i) (mem_enumFrom_le as (i + 1) q hq)

/-- The page numbers the ingestion pipeline writes, as a plain `Nat` list:
chunk `j` gets page `j / 2 + 1`. -/
theorem ingest_pageNums (src : String) (docs : List String) :
    chunkPageNums (processChunksInBatches (initialChunks src docs)) =
      (enumFrom 0 docs).map (fun p => p.1 / 2 + 1) := by
  rw [chunkPageNums, ingest_eq, List.filterMap_map,
    List.filterMap_eq_map_iff_forall_eq_some]
  intro p _
  rfl

/-! ## Maps, paths and small JavaScript semantics helpers -/

/-- `Map.get` on a JavaScript `Map` keyed by strings. -/
def lookupA {β : Type} : List (String × β) → String → Option β
  | [], _ => none
  | p :: m, k => if p.1 = k then some p.2 else lookupA m k

/-- `Map.delete`. -/
def eraseA {β : Type} : List (String × β) → String → List (String × β)
  | [], _ => []
  | p :: m, k => if p.1 = k then eraseA m k else p :: eraseA m k

/-- `Map.set` (overwrite). -/
def insertA {β : Type} (m : List (String × β)) (k : String) (v : β) :
    List (String × β) :=
  (k, v) :: eraseA m k

theorem lookupA_eraseA_ne {β : Type} (m : List (String × β)) (k k' : String)
    (h : k' ≠ k) : lookupA (eraseA m k) k' = lookupA m k' := by
  induction m with
  | nil => rfl
  | cons p m ih =>
      by_cases hp : p.1 = k
      · have hk : k ≠ k' := fun he => h he.symm
        simp [eraseA, lookupA, hp, hk, ih]
      · simp only [eraseA, hp, if_false, lookupA, ih]

theorem lookupA_insertA_self {β : Type} (m : List (String × β)) (k : String) (v : β) :
    lookupA (insertA m k v) k = some v := by
  simp [insertA, lookupA]

theorem lookupA_insertA_ne {β : Type} (m : List (String × β)) (k k' : String) (v : β)
    (h : k' ≠ k) : lookupA (insertA m k v) k' = lookupA m k' := by
  have : k ≠ k' := fun he => h he.symm
  simp [insertA, lookupA, this, lookupA_eraseA_ne m k k' h]

def charsPrefix : List Char → List Char → Bool
  | [], _ => true
  | _ :: _, [] => false
  | a :: as, b :: bs => if a = b then charsPrefix as bs else false

/-- `String.startsWith`, spelled over the character lists so that concrete
instances evaluate. -/
def strStartsWith (s pre : String) : Bool :=
  charsPrefix pre.toList s.toList

def splitSegsAux : List Char → List Char → List String
  | [], cur => [String.mk cur.reverse]
  | c :: cs, cur =>
      if c = '/' then String.mk cur.reverse :: splitSegsAux cs []
      else splitSegsAux cs (c :: cur)

/-- Path segments (`'/'`-separated). -/
def splitSegs (p : String) : List String := splitSegsAux p.toList []

def joinSep (sep : String) : List String → String
  | [] => ""
  | [s] => s
  | s :: rest => s ++ sep ++ joinSep sep rest

def normStep (acc : List String) (seg : String) : List String :=
  if seg = "" ∨ seg = "." then acc
  else if seg = ".." then acc.dropLast
  else acc ++ [seg]

/-- `path.normalize`, restricted to relative posix paths: resolves `.` and
`..` segments and collapses repeated separators (the only inputs the server
builds are `uploads/<filename>` shapes). -/
def normalizePath (p : String) : String :=
  joinSep "/" ((splitSegs p).foldl normStep [])

/-- `path.basename`: the final path segment. -/
def basename (p : String) : String :=
  ((splitSegs p).getLast?).getD p

/-- `path.join(process.cwd(), 'uploads')`, relative to the process root. -/
def uploadsDir : String := "uploads"

/-- `[...new Set(xs)]`: JavaScript `Set` keeps first occurrences in
insertion order.  Structural fuel recursion (each step consumes one
element, so the length is enough fuel). -/
def jsSetDedupFuel : Nat → List (Option Nat) → List (Option Nat)
  | 0, _ => []
  | _ + 1, [] => []
  | fuel + 1, x :: xs => x :: jsSetDedupFuel fuel (xs.filter (fun y => y ≠ x))

def jsSetDedup (l : List (Option Nat)) : List (Option Nat) :=
  jsSetDedupFuel l.length l

/-- The comparator `(a, b) => a - b` reports `a` strictly before `b`; a
comparison involving `undefined` yields `NaN`, which engines treat as 0
(leave relative order alone). -/
def jsLt : Option Nat → Option Nat → Bool
  | some m, some n => m < n
  | _, _ => false

def jsSortInsert (a : Option Nat) : List (Option Nat) → List (Option Nat)
  | [] => [a]
  | b :: bs => if jsLt a b then a :: b :: bs else b :: jsSortInsert a bs

/-- `xs.sort((a, b) => a - b)`: a stable ascending sort (elements comparing
as ties stay in encounter order). -/
def jsSortAsc (l : List (Option Nat)) : List (Option Nat) :=
  l.foldl (fun acc a => jsSortInsert a acc) []

/-- `[...new Set(xs)].sort((a, b) => a - b)` from `chatWithPdf`. -/
def jsUniqueSorted (l : List (Option Nat)) : List (Option Nat) :=
  jsSortAsc (jsSetDedup l)

/-! ## System state -/

inductive Role
  | user
  | assistant
  deriving Repr, DecidableEq

/-- One `sources` entry of a chat result: `{page, content}`. -/
structure SourceRef where
  page : Option Nat
  content : String
  deriving Repr, DecidableEq

/-- `{answer, sourcePages, sources}` returned by `chatWithPdf`. -/
structure ChatResult where
  answer : String
  sourcePages : List (Option Nat)
  sources : List SourceRef
  deriving Repr, DecidableEq

/-- A persisted chat turn.  `messageSchema` declares exactly `role`,
`content`, `sourcePages` and `timestamp`; it has no `sources` path, so a
persisted turn's `sources` is always `none` (mongoose strict mode drops the
field the route supplies). -/
structure ChatTurn where
  role : Role
  content : String
  sourcePages : List (Option Nat)
  sources : Option (List SourceRef)
  timestamp : Nat
  deriving Repr, DecidableEq

/-- Mongoose cast of a pushed message against `messageSchema`: every
declared path is kept, the undeclared `sources` path is dropped. -/
def castMessage (m : ChatTurn) : ChatTurn :=
  { m with sources := none }

/-- A `PdfDocument` record (`pdfDocumentSchema`), restricted to the fields
the chat path reads. -/
structure PdfDoc where
  filename : String
  documentChunks : List Chunk
  chatHistory : List ChatTurn
  deriving Repr, DecidableEq

/-- Mongoose cast of an in-memory chunk against `documentChunkSchema`: the
declared paths are `pageContent`, `metadata.page` and
`metadata.location.pageNumber`; the undeclared `metadata.source` and
`metadata.pageNumber` written by `processPdf` are dropped on save. -/
def persistChunk (c : Chunk) : Chunk :=
  { pageContent := c.pageContent,
    metadata := { source := none, pageNumber := none,
                  page := c.metadata.page,
                  locationPageNumber := c.metadata.locationPageNumber } }

/-- An uploaded file as the extractor sees it: `pdfParse` output `data.text`
plus the reported `data.numpages` (0 when the extractor reports none —
JavaScript falsy). -/
structure RawFile where
  text : String
  numpages : Nat
  deriving Repr, DecidableEq

structure CacheEntry where
  value : ChatResult
  storedAt : Nat
  deriving Repr, DecidableEq

/-- The process-wide mutable state of pdfService plus its collaborators:
the `vectorStores` registry (a built MemoryVectorStore is identified by the
chunk list it embeds), the node-cache instance, the mongo collection keyed
by `filename` (the key `chatWithPdf` queries with), the uploads directory,
the clock, and two call counters instrumenting the external services. -/
structure SysState where
  vectorStores : List (String × List Chunk)
  cache : List (String × CacheEntry)
  db : List (String × PdfDoc)
  rawFiles : List (String × RawFile)
  now : Nat
  genCalls : Nat
  buildCalls : Nat
  deriving Repr, DecidableEq

/-- The external services the code pipes through: the text splitter, the
embedding pass run by `MemoryVectorStore.fromDocuments`, `similaritySearch`
(which embeds the question and ranks the store's chunks) and the Groq
generation chain (prompt template + model + output parsing, a function of
the context block and the question only). -/
structure Oracles where
  split : String → List String
  embedIndex : List Chunk → Except String Unit
  search : List Chunk → String → Nat → Except String (List Chunk)
  generate : String → String → Except String String

/-- `new NodeCache({ stdTTL: 3600 })`: one hour, in seconds. -/
def cacheTtl : Nat := 3600

def cacheKeyOf (filename question : String) (histLen : Nat) : String :=
  "pdf_query_" ++ filename ++ "_" ++ question ++ "_" ++ toString histLen

/-- `cache.get`: an entry expires `cacheTtl` after insertion and is then
treated as absent. -/
def cacheGet (s : SysState) (k : String) : Option ChatResult :=
  match lookupA s.cache k with
  | none => none
  | some e => if s.now ≤ e.storedAt + cacheTtl then some e.value else none

/-! ## processPdf -/

/-- The chunk list `processPdf` builds for a parsed file:
`textSplitter.createDocuments([data.text])`, then `initialChunks`, then
`processChunksInBatches`. -/
def ingestFile (O : Oracles) (name text : String) : List Chunk :=
  processChunksInBatches (initialChunks name (O.split text))

/-- `data.numpages || Math.ceil(docs.length / 2)` (a reported count of 0 is
falsy). -/
def pageCountOf (O : Oracles) (file : RawFile) : Nat :=
  if file.numpages = 0 then ((O.split file.text).length + 1) / 2 else file.numpages

/-- `processPdf(filePath)`: validate the path, read and parse the file,
split, attribute pages, embed (one `MemoryVectorStore.fromDocuments` pass,
counted in `buildCalls`), register the store under the bare filename, and
return the chunks plus the page count.  Every failure is rethrown as
`Failed to process PDF document: ...`. -/
def processPdf (O : Oracles) (s : SysState) (filePath : String) :
    Except String (List Chunk × Nat) × SysState :=
  if ¬ strStartsWith (normalizePath filePath) uploadsDir then
    (.error "Failed to process PDF document: Invalid file path. Files must be in the uploads directory.", s)
  else
    match lookupA s.rawFiles (normalizePath filePath) with
    | none =>
        (.error ("Failed to process PDF document: PDF file not found at path: " ++ normalizePath filePath), s)
    | some file =>
        if file.text = "" then
          (.error "Failed to process PDF document: PDF parsing resulted in no text content", s)
        else
          match O.embedIndex (ingestFile O (basename (normalizePath filePath)) file.text) with
          | .error e =>
              (.error ("Failed to process PDF document: " ++ e),
               { s with buildCalls := s.buildCalls + 1 })
          | .ok _ =>
              (.ok (ingestFile O (basename (normalizePath filePath)) file.text, pageCountOf O file),
               { s with buildCalls := s.buildCalls + 1,
                        vectorStores := insertA s.vectorStores (basename (normalizePath filePath))
                          (ingestFile O (basename (normalizePath filePath)) file.text) })

/-! ## chatWithPdf -/

/-- The store-resolution prefix of `chatWithPdf`: use the registered store
for the filename; otherwise rebuild it from the chunks persisted in mongo;
if the record has no chunks, reprocess the uploaded file (which itself
builds and registers a store) and then build and register once more from
the returned chunks. -/
def resolveStore (O : Oracles) (s : SysState) (filename : String) :
    Except String (List Chunk) × SysState :=
  match lookupA s.vectorStores filename with
  | some vs => (.ok vs, s)
  | none =>
      match lookupA s.db filename with
      | none => (.error "PDF document not found in database", s)
      | some pdfDoc =>
          if pdfDoc.documentChunks.isEmpty then
            match processPdf O s (uploadsDir ++ "/" ++ filename) with
            | (.error e, s₁) => (.error e, s₁)
            | (.ok (documentChunks, _), s₁) =>
                match O.embedIndex documentChunks with
                | .error e => (.error e, { s₁ with buildCalls := s₁.buildCalls + 1 })
                | .ok _ =>
                    (.ok documentChunks,
                     { s₁ with buildCalls := s₁.buildCalls + 1,
                               vectorStores := insertA s₁.vectorStores filename documentChunks })
          else
            match O.embedIndex pdfDoc.documentChunks with
            | .error e => (.error e, { s with buildCalls := s.buildCalls + 1 })
            | .ok _ =>
                (.ok pdfDoc.documentChunks,
                 { s with buildCalls := s.buildCalls + 1,
                          vectorStores := insertA s.vectorStores filename pdfDoc.documentChunks })

/-- `retrievedDocs.map(doc => doc.pageContent).join('\n\n')`, the grounding
context fed to the prompt template. -/
def contextOf (retrievedDocs : List Chunk) : String :=
  joinSep "\n\n" (retrievedDocs.map (fun d => d.pageContent))

/-- The `{answer, sourcePages, sources}` record `chatWithPdf` shapes from
the generation response and the retrieved chunks. -/
def shapeResult (retrievedDocs : List Chunk) (response : String) : ChatResult :=
  { answer := response,
    sourcePages := jsUniqueSorted (retrievedDocs.map (fun d => d.metadata.pageNumber)),
    sources := retrievedDocs.map (fun d =>
      { page := d.metadata.pageNumber,
        content := d.pageContent.take 150 ++ "..." }) }

/-- `chatWithPdf(filename, question, chatHistory)`: resolve the store, then
check the query cache under
`pdf_query_<filename>_<question>_<chatHistory.length>`, then retrieve the
top 3 chunks, invoke the generation chain on the double-newline context
block, shape the result from the retrieved chunks, cache it and return it.
Any error propagates to the caller unchanged. -/
def chatWithPdf (O : Oracles) (s : SysState) (filename question : String)
    (chatHistory : List ChatTurn) : Except String ChatResult × SysState :=
  match resolveStore O s filename with
  | (.error e, s₁) => (.error e, s₁)
  | (.ok vs, s₁) =>
      match cacheGet s₁ (cacheKeyOf filename question chatHistory.length) with
      | some cachedResult => (.ok cachedResult, s₁)
      | none =>
          match O.search vs question 3 with
          | .error e => (.error e, s₁)
          | .ok retrievedDocs =>
              match O.generate (contextOf retrievedDocs) question with
              | .error e => (.error e, { s₁ with genCalls := s₁.genCalls + 1 })
              | .ok response =>
                  (.ok (shapeResult retrievedDocs response),
                   { s₁ with genCalls := s₁.genCalls + 1,
                             cache := insertA s₁.cache
                               (cacheKeyOf filename question chatHistory.length)
                               { value := shapeResult retrievedDocs response,
                                 storedAt := s₁.now } })

/-- `cleanupFile(filePath)`: unlink the file and drop the `vectorStores`
entry under the full normalized path.  When the unlink throws (file
absent), the catch swallows the error and the registry delete is skipped. -/
def cleanupFile (s : SysState) (filePath : String) : SysState :=
  match lookupA s.rawFiles (normalizePath filePath) with
  | none => s
  | some _ =>
      { s with rawFiles := eraseA s.rawFiles (normalizePath filePath),
               vectorStores := eraseA s.vectorStores (normalizePath filePath) }

/-! ## The chat route (POST /:id/chat) -/

inductive RouteResp
  | ok (answer : String) (sourcePages : List (Option Nat))
       (sources : List SourceRef) (chatHistory : List ChatTurn)
  | notFound (msg : String)
  | serverError (msg : String)
  deriving Repr, DecidableEq

/-- The two turns the chat route pushes onto `pdf.chatHistory` after a
successful `chatWithPdf` call, as persisted: the route supplies a `sources`
field on the assistant turn, but `castMessage` (the `messageSchema` cast)
drops it. -/
def pushedTurns (content : String) (r : ChatResult) (t : Nat) : List ChatTurn :=
  [castMessage { role := .user, content := content, sourcePages := [],
                 sources := none, timestamp := t },
   castMessage { role := .assistant, content := r.answer, sourcePages := r.sourcePages,
                 sources := some r.sources, timestamp := t }]

/-- The updated document record the route saves: history plus the two new
turns. -/
def appendTurns (pdf : PdfDoc) (content : String) (r : ChatResult) (t : Nat) : PdfDoc :=
  { pdf with chatHistory := pdf.chatHistory ++ pushedTurns content r t }

/-- The chat handler after authentication: load the document record, check
the uploaded file still exists, run `chatWithPdf`, then push a user turn
and an assistant turn (cast against `messageSchema`) and save.  The mongo
lookup is by document id and owner in the route; both resolve the same
record the service later loads by `filename`, so the record key here is the
filename. -/
def chatPost (O : Oracles) (s : SysState) (filename content : String) :
    RouteResp × SysState :=
  match lookupA s.db filename with
  | none => (.notFound "PDF not found", s)
  | some pdf =>
      if (lookupA s.rawFiles (normalizePath (uploadsDir ++ "/" ++ pdf.filename))).isNone then
        (.notFound "PDF file not found on server", s)
      else
        match chatWithPdf O s pdf.filename content pdf.chatHistory with
        | (.error e, s₁) => (.serverError e, s₁)
        | (.ok r, s₁) =>
            (.ok r.answer r.sourcePages r.sources (appendTurns pdf content r s₁.now).chatHistory,
             { s₁ with db := insertA s₁.db filename (appendTurns pdf content r s₁.now) })

/-! ## Interleaving model of concurrent first accesses (registry build)

Between `vectorStores.get(filename)` and `vectorStores.set(filename, ...)`
the code awaits `PdfDocument.findOne` and
`MemoryVectorStore.fromDocuments`, so another request for the same
uninitialized document can run its own check in between.  Each concurrent
request is a task with a program counter over the three phases the awaits
delimit: check the registry, run the embedding pass, publish the store. -/

inductive TaskPc
  | start
  | missed
  | built
  | done
  deriving Repr, DecidableEq

structure ConcState where
  vectorStores : List (String × List Chunk)
  buildCalls : Nat
  tasks : List TaskPc
  deriving Repr, DecidableEq

/-- One step of task `t` of `chatWithPdf`'s store resolution. -/
def concStep (filename : String) (chunks : List Chunk) (st : ConcState) (t : Nat) :
    ConcState :=
  match st.tasks.get? t with
  | none => st
  | some .start =>
      if (lookupA st.vectorStores filename).isSome then
        { st with tasks := st.tasks.set t .done }
      else
        { st with tasks := st.tasks.set t .missed }
  | some .missed =>
      { st with buildCalls := st.buildCalls + 1, tasks := st.tasks.set t .built }
  | some .built =>
      { st with vectorStores := insertA st.vectorStores filename chunks,
                tasks := st.tasks.set t .done }
  | some .done => st

/-- Run the tasks under a scheduler choice. -/
def runSched (filename : String) (chunks : List Chunk) (sched : List Nat)
    (st : ConcState) : ConcState :=
  sched.foldl (concStep filename chunks) st

/-! ## Frame lemmas -/

theorem processPdf_frame (O : Oracles) (s : SysState) (p : String)
    (out : Except String (List Chunk × Nat) × SysState)
    (h : processPdf O s p = out) :
    out.2.cache = s.cache ∧ out.2.now = s.now ∧ out.2.genCalls = s.genCalls ∧
    out.2.db = s.db ∧ out.2.rawFiles = s.rawFiles := by
  unfold processPdf at h
  repeat' split at h
  all_goals subst h
  all_goals exact ⟨rfl, rfl, rfl, rfl, rfl⟩

theorem resolveStore_frame (O : Oracles) (s : SysState) (f : String)
    (out : Except String (List Chunk) × SysState)
    (h : resolveStore O s f = out) :
    out.2.cache = s.cache ∧ out.2.now = s.now ∧ out.2.genCalls = s.genCalls ∧
    out.2.db = s.db ∧ out.2.rawFiles = s.rawFiles := by
  unfold resolveStore at h
  generalize hpp : processPdf O s (uploadsDir ++ "/" ++ f) = pp at h
  obtain ⟨hc, hn, hg, hd, hr⟩ := processPdf_frame O s (uploadsDir ++ "/" ++ f) pp hpp
  repeat' split at h
  all_goals subst h
  all_goals try dsimp only at hc hn hg hd hr
  all_goals first
    | exact ⟨rfl, rfl, rfl, rfl, rfl⟩
    | exact ⟨hc, hn, hg, hd, hr⟩

theorem resolveStore_ok_lookup (O : Oracles) (s : SysState) (f : String)
    (vs : List Chunk) (s₁ : SysState)
    (h : resolveStore O s f = (.ok vs, s₁)) :
    lookupA s₁.vectorStores f = some vs := by
  unfold resolveStore at h
  generalize processPdf O s (uploadsDir ++ "/" ++ f) = pp at h
  repeat' split at h
  all_goals injection h with h1 h2
  all_goals try exact Except.noConfusion h1
  all_goals injection h1 with h1
  all_goals subst h1
  all_goals subst h2
  · rename_i hvs
    exact hvs
  · exact lookupA_insertA_self _ _ _
  · exact lookupA_insertA_self _ _ _

theorem cacheGet_congr (s s' : SysState) (k : String)
    (hc : s'.cache = s.cache) (hn : s'.now = s.now) :
    cacheGet s' k = cacheGet s k := by
  unfold cacheGet
  rw [hc, hn]

theorem resolveStore_hit (O : Oracles) (s : SysState) (f : String) (vs : List Chunk)
    (hvs : lookupA s.vectorStores f = some vs) :
    resolveStore O s f = (.ok vs, s) := by
  unfold resolveStore
  rw [hvs]

/-- `chatWithPdf` never touches the database or the uploads directory, and
never advances the clock. -/
theorem chatWithPdf_frame (O : Oracles) (s : SysState) (f q : String)
    (hist : List ChatTurn) (out : Except String ChatResult × SysState)
    (h : chatWithPdf O s f q hist = out) :
    out.2.db = s.db ∧ out.2.now = s.now ∧ out.2.rawFiles = s.rawFiles := by
  unfold chatWithPdf at h
  generalize hrs : resolveStore O s f = rs at h
  obtain ⟨hc, hn, hg, hd, hr⟩ := resolveStore_frame O s f rs hrs
  repeat' split at h
  all_goals subst h
  all_goals try dsimp only at hc hn hg hd hr
  all_goals exact ⟨hd, hn, hr⟩

/-- A failed `chatWithPdf` call leaves the query cache exactly as it was. -/
theorem chatWithPdf_error_cache (O : Oracles) (s : SysState) (f q : String)
    (hist : List ChatTurn) (e : String) (s₁ : SysState)
    (h : chatWithPdf O s f q hist = (.error e, s₁)) :
    s₁.cache = s.cache := by
  unfold chatWithPdf at h
  generalize hrs : resolveStore O s f = rs at h
  obtain ⟨hc, hn, hg, hd, hr⟩ := resolveStore_frame O s f rs hrs
  repeat' split at h
  all_goals injection h with h1 h2
  all_goals try exact Except.noConfusion h1
  all_goals subst h2
  all_goals try dsimp only at hc
  all_goals exact hc

/-- When the store is already resolved and the cache holds a fresh entry,
`chatWithPdf` returns it with no retrieval and no generation. -/
theorem chatWithPdf_cacheHit (O : Oracles) (s : SysState) (f q : String)
    (hist : List ChatTurn) (r : ChatResult) (vs : List Chunk) (s₁ : SysState)
    (hres : resolveStore O s f = (.ok vs, s₁))
    (hhit : cacheGet s (cacheKeyOf f q hist.length) = some r) :
    chatWithPdf O s f q hist = (.ok r, s₁) := by
  obtain ⟨hc, hn, hg, hd, hr⟩ := resolveStore_frame O s f _ hres
  unfold chatWithPdf
  rw [hres]
  have hg1 : cacheGet s₁ (cacheKeyOf f q hist.length) = some r := by
    rw [cacheGet_congr s s₁ _ hc hn, hhit]
  simp only [hg1]

/-- A `chatWithPdf` call that misses the cache and succeeds: it stores its
result under the key at the current time, it performed exactly one
generation call, and it leaves a store registered under the filename. -/
theorem chatWithPdf_miss_ok (O : Oracles) (s : SysState) (f q : String)
    (hist : List ChatTurn) (r : ChatResult) (s₁ : SysState)
    (hmiss : cacheGet s (cacheKeyOf f q hist.length) = none)
    (h : chatWithPdf O s f q hist = (.ok r, s₁)) :
    lookupA s₁.cache (cacheKeyOf f q hist.length) =
        some { value := r, storedAt := s.now } ∧
    s₁.genCalls = s.genCalls + 1 ∧
    (∃ vs, lookupA s₁.vectorStores f = some vs) ∧
    s₁.now = s.now := by
  unfold chatWithPdf at h
  generalize hrs : resolveStore O s f = rs at h
  obtain ⟨res, s₂⟩ := rs
  obtain ⟨hc, hn, hg, hd, hr⟩ := resolveStore_frame O s f _ hrs
  dsimp only at hc hn hg hd hr
  cases res with
  | error e => simp at h
  | ok vs =>
      have hcg : cacheGet s₂ (cacheKeyOf f q hist.length) = none := by
        rw [cacheGet_congr s s₂ _ hc hn]
        exact hmiss
      simp only [hcg] at h
      cases hs : O.search vs q 3 with
      | error e =>
          simp only [hs] at h
          simp at h
      | ok docs =>
          simp only [hs] at h
          cases hgn : O.generate (contextOf docs) q with
          | error e =>
              simp only [hgn] at h
              simp at h
          | ok resp =>
              simp only [hgn] at h
              injection h with h1 h2
              injection h1 with h1
              subst h1
              subst h2
              refine ⟨?_, ?_, ?_, ?_⟩
              · rw [lookupA_insertA_self, hn]
              · dsimp only
                rw [hg]
              · exact ⟨vs, resolveStore_ok_lookup O s f vs s₂ hrs⟩
              · exact hn

/-! ## Auxiliary facts for the page-attribution claims -/

theorem map_enumFrom_fst {α β : Type} (g : Nat → β) :
    ∀ (l : List α) (i : Nat),
      (enumFrom i l).map (fun p => g p.1) = (List.range' i l.length).map g := by
  intro l
  induction l with
  | nil => intro i; simp [enumFrom]
  | cons a as ih => intro i; simp [enumFrom, List.range'_succ, ih (i + 1)]

/-! ## Concrete fixtures -/

/-- Benign stand-ins for the external services: the splitter returns the
whole text as one segment, embedding always succeeds, similarity search
returns the first `k` chunks of the store, generation returns a fixed
answer. -/
def oracleStub : Oracles :=
  { split := fun t => [t],
    embedIndex := fun _ => .ok (),
    search := fun chunks _ k => .ok (chunks.take k),
    generate := fun _ _ => .ok "ANSWER" }

def resultChunks (r : Except String (List Chunk × Nat) × SysState) : List Chunk :=
  match r.1 with
  | .ok (cs, _) => cs
  | .error _ => []

def resultCount (r : Except String (List Chunk × Nat) × SysState) : Nat :=
  match r.1 with
  | .ok (_, n) => n
  | .error _ => 0

def docsC4 : List String :=
  ["s0", "s1", "s2", "s3", "s4", "s5", "s6", "s7", "s8", "s9"]

def oracleC4 : Oracles := { oracleStub with split := fun _ => docsC4 }

def stateC4 : SysState :=
  { vectorStores := [], cache := [], db := [],
    rawFiles := [("uploads/doc4.pdf", { text := "T", numpages := 1 })],
    now := 0, genCalls := 0, buildCalls := 0 }

def stateC4b : SysState :=
  { stateC4 with rawFiles := [("uploads/doc4.pdf", { text := "T", numpages := 100 })] }

/-! ## Claims about page attribution (C4, C9) -/

/-- Claim C4, counterexample: ingesting a file whose extractor reports 1
page still assigns pages 1..5 to its 10 chunks — identically for a
reported count of 100 — so the assignment is `floor(ordinal / 2) + 1` and
is not scaled against the extractor's reported page count (it even exceeds
it). -/
theorem page_assignment_not_scaled_by_reported_count :
    resultCount (processPdf oracleC4 stateC4 "uploads/doc4.pdf") = 1 ∧
    chunkPageNums (resultChunks (processPdf oracleC4 stateC4 "uploads/doc4.pdf")) =
      [1, 1, 2, 2, 3, 3, 4, 4, 5, 5] ∧
    resultChunks (processPdf oracleC4 stateC4 "uploads/doc4.pdf") =
      resultChunks (processPdf oracleC4 stateC4b "uploads/doc4.pdf") ∧
    ¬ (∀ p ∈ chunkPageNums (resultChunks (processPdf oracleC4 stateC4 "uploads/doc4.pdf")),
        p ≤ resultCount (processPdf oracleC4 stateC4 "uploads/doc4.pdf")) := by
  decide

/-- Claim C4 (amended): during ingestion chunk `j` is assigned the page
`floor(j / 2) + 1` — two chunks per page, computed from the ordinal alone,
independent of the extractor's reported page count; the assignment is a
pure function of the split segments, hence reproducible. -/
theorem ingested_pages_formula (src : String) (docs : List String) :
    chunkPages (processChunksInBatches (initialChunks src docs)) =
      (List.range docs.length).map (fun j => some (j / 2 + 1)) := by
  rw [chunkPages, ingest_eq, List.map_map, List.range_eq_range']
  have h := map_enumFrom_fst (fun j => (some (j / 2 + 1) : Option Nat)) docs 0
  exact h

/-- Claim C9: the page numbers the ingestion pipeline assigns are
non-decreasing in chunk order. -/
theorem ingested_pages_monotone (src : String) (docs : List String) :
    List.Pairwise (· ≤ ·)
      (chunkPageNums (processChunksInBatches (initialChunks src docs))) := by
  rw [ingest_pageNums]
  refine List.Pairwise.map _ ?_ (pairwise_enumFrom docs 0)
  intro a b hab
  exact Nat.succ_le_succ (Nat.div_le_div_right (Nat.le_of_lt hab))

/-! ## Claim C8: no single-flight guard on concurrent first access -/

def chunksConc : List Chunk :=
  [{ pageContent := "c",
     metadata := { source := none, pageNumber := none, page := some 1,
                   locationPageNumber := none } }]

def concStart : ConcState :=
  { vectorStores := [], buildCalls := 0, tasks := [.start, .start] }

/-- Claim C8, failing execution: two requests hit the registry of the same
uninitialized document; both run their registry check before either
publishes, so two embedding passes run (buildCalls ends at 2, not 1),
even though both tasks complete. -/
theorem concurrent_first_access_double_build :
    (runSched "doc1.pdf" chunksConc [0, 1, 0, 1, 0, 1] concStart).buildCalls = 2 ∧
    (runSched "doc1.pdf" chunksConc [0, 1, 0, 1, 0, 1] concStart).tasks =
      [.done, .done] ∧
    concStart.buildCalls = 0 := by
  decide

/-! ## Claim C10: cleanupFile deletes under the full path, registration is
under the bare filename -/

/-- Claim C10: `processPdf` registers the vector store under
`path.basename(normalizedPath)` while `cleanupFile` deletes the registry
entry under the full normalized path; when the two differ, the entry under
the filename survives the delete, and a subsequent chat for that filename
resolves the surviving store without any rebuild. -/
theorem cleanup_leaves_filename_index (O : Oracles) (s : SysState) (p : String)
    (vs : List Chunk)
    (hreg : lookupA s.vectorStores (basename (normalizePath p)) = some vs)
    (hne : normalizePath p ≠ basename (normalizePath p)) :
    lookupA (cleanupFile s p).vectorStores (basename (normalizePath p)) = some vs ∧
    resolveStore O (cleanupFile s p) (basename (normalizePath p)) =
      (.ok vs, cleanupFile s p) := by
  have hl : lookupA (cleanupFile s p).vectorStores (basename (normalizePath p)) = some vs := by
    unfold cleanupFile
    split
    · exact hreg
    · dsimp only
      rw [lookupA_eraseA_ne _ _ _ (Ne.symm hne)]
      exact hreg
  exact ⟨hl, resolveStore_hit O _ _ vs hl⟩

def stateC10 : SysState :=
  { vectorStores := [("doc1.pdf", chunksConc)], cache := [], db := [],
    rawFiles := [("uploads/doc1.pdf", { text := "T", numpages := 1 })],
    now := 0, genCalls := 0, buildCalls := 0 }

/-- Claim C10, witness: a store registered under `doc1.pdf` survives
`cleanupFile("uploads/doc1.pdf")` and the next resolution returns it. -/
theorem cleanup_leaves_filename_index_witness :
    lookupA (cleanupFile stateC10 "uploads/doc1.pdf").vectorStores
        (basename (normalizePath "uploads/doc1.pdf")) = some chunksConc ∧
    resolveStore oracleStub (cleanupFile stateC10 "uploads/doc1.pdf")
        (basename (normalizePath "uploads/doc1.pdf")) =
      (.ok chunksConc, cleanupFile stateC10 "uploads/doc1.pdf") :=
  cleanup_leaves_filename_index oracleStub stateC10 "uploads/doc1.pdf" chunksConc
    (by decide) (by decide)

/-! ## Claim C1: sourcePages after an index rebuild from persisted chunks -/

def docsC1 : List String := ["alpha segment", "beta segment"]

/-- The in-memory chunks of a freshly ingested two-segment document. -/
def chunksC1 : List Chunk := processChunksInBatches (initialChunks "doc1.pdf" docsC1)

/-- The same chunks as persisted through `documentChunkSchema`. -/
def persistedC1 : List Chunk := chunksC1.map persistChunk

def dbDocC1 : PdfDoc :=
  { filename := "doc1.pdf", documentChunks := persistedC1, chatHistory := [] }

def stateC1 : SysState :=
  { vectorStores := [], cache := [], db := [("doc1.pdf", dbDocC1)],
    rawFiles := [("uploads/doc1.pdf", { text := "T", numpages := 1 })],
    now := 0, genCalls := 0, buildCalls := 0 }

def chatPages (x : Except String ChatResult × SysState) : List (Option Nat) :=
  match x.1 with
  | .ok v => v.sourcePages
  | .error _ => []

def chatOk (x : Except String ChatResult × SysState) : Bool :=
  match x.1 with
  | .ok _ => true
  | .error _ => false

/-- Claim C1's property for one result: every returned source page is an
actual page number among the document's persisted chunks. -/
def sourcePagesFromChunks (sp : List (Option Nat)) (persisted : List Chunk) : Prop :=
  ∀ x ∈ sp, x ≠ none ∧ x ∈ persisted.map (fun c => c.metadata.page)

instance (sp : List (Option Nat)) (persisted : List Chunk) :
    Decidable (sourcePagesFromChunks sp persisted) := by
  unfold sourcePagesFromChunks
  infer_instance

/-- Claim C1, failing run: after a process restart the store is rebuilt from
the chunks persisted through `documentChunkSchema`, whose page lives under
`metadata.page` — but `chatWithPdf` reads `metadata.pageNumber`, which the
schema does not persist.  The call succeeds and returns
`sourcePages = [undefined]`, not a subset of the persisted page numbers
(which are all defined). -/
theorem rebuilt_index_sourcePages_undefined :
    chatOk (chatWithPdf oracleStub stateC1 "doc1.pdf" "q" []) = true ∧
    chatPages (chatWithPdf oracleStub stateC1 "doc1.pdf" "q" []) = [none] ∧
    (∀ c ∈ dbDocC1.documentChunks, c.metadata.page ≠ none) ∧
    ¬ sourcePagesFromChunks (chatPages (chatWithPdf oracleStub stateC1 "doc1.pdf" "q" []))
        dbDocC1.documentChunks := by
  decide

/-! ## Claim C5: index resolution precedes the cache lookup -/

def cachedC5 : ChatResult :=
  { answer := "CACHED", sourcePages := [some 1], sources := [] }

def stateC5 : SysState :=
  { vectorStores := [],
    cache := [(cacheKeyOf "doc1.pdf" "q" 0, { value := cachedC5, storedAt := 0 })],
    db := [("doc1.pdf", dbDocC1)],
    rawFiles := [("uploads/doc1.pdf", { text := "T", numpages := 1 })],
    now := 10, genCalls := 0, buildCalls := 0 }

/-- Claim C5, counterexample: with a valid cached entry for the key and no
in-memory store, `chatWithPdf` still performs a full index build (an
embedding pass) before returning the cached entry — index resolution is not
skipped on a cache hit. -/
theorem index_resolution_happens_on_cache_hit :
    cacheGet stateC5 (cacheKeyOf "doc1.pdf" "q" 0) = some cachedC5 ∧
    (chatWithPdf oracleStub stateC5 "doc1.pdf" "q" []).1 = .ok cachedC5 ∧
    stateC5.buildCalls = 0 ∧
    (chatWithPdf oracleStub stateC5 "doc1.pdf" "q" []).2.buildCalls = 1 := by
  decide

/-- Claim C5 (amended): `chatWithPdf` resolves the vector store (with
build-on-miss) on every call, before the cache lookup; when the store
resolves and the cache holds a fresh entry for the key, the cached entry is
returned in the post-resolution state, with no generation call. -/
theorem cache_hit_returns_cached_entry_after_resolution
    (O : Oracles) (s : SysState) (f q : String) (hist : List ChatTurn)
    (vs : List Chunk) (s₁ : SysState) (r : ChatResult)
    (hres : resolveStore O s f = (.ok vs, s₁))
    (hhit : cacheGet s (cacheKeyOf f q hist.length) = some r) :
    chatWithPdf O s f q hist = (.ok r, s₁) ∧ s₁.genCalls = s.genCalls := by
  refine ⟨chatWithPdf_cacheHit O s f q hist r vs s₁ hres hhit, ?_⟩
  obtain ⟨hc, hn, hg, hd, hr⟩ := resolveStore_frame O s f _ hres
  exact hg

/-- Claim C5 (amended), witness at the counterexample state. -/
theorem cache_hit_returns_cached_entry_after_resolution_witness :
    chatWithPdf oracleStub stateC5 "doc1.pdf" "q" [] =
      (.ok cachedC5, (resolveStore oracleStub stateC5 "doc1.pdf").2) ∧
    (resolveStore oracleStub stateC5 "doc1.pdf").2.genCalls = stateC5.genCalls :=
  cache_hit_returns_cached_entry_after_resolution oracleStub stateC5 "doc1.pdf" "q" []
    persistedC1 _ cachedC5 (by decide) (by decide)

/-! ## Claim C2: cache idempotence within the TTL -/

/-- Claim C2: when `answer()` misses the cache and succeeds, a second call
with the identical `(documentId, question, historyLength)` triple made no
later than one hour after the first stored its result returns the identical
result, and the generation model ran exactly once across the two calls
(once in the first, zero times in the second). -/
theorem answer_cache_idempotent
    (O : Oracles) (s : SysState) (f q : String) (h₁ h₂ : List ChatTurn)
    (r : ChatResult) (s₁ : SysState) (t₂ : Nat)
    (hmiss : cacheGet s (cacheKeyOf f q h₁.length) = none)
    (hok : chatWithPdf O s f q h₁ = (.ok r, s₁))
    (hlen : h₂.length = h₁.length)
    (ht : t₂ ≤ s.now + cacheTtl) :
    chatWithPdf O { s₁ with now := t₂ } f q h₂ = (.ok r, { s₁ with now := t₂ }) ∧
    s₁.genCalls = s.genCalls + 1 := by
  obtain ⟨hstore, hgen, ⟨vs, hvs⟩, hnow⟩ := chatWithPdf_miss_ok O s f q h₁ r s₁ hmiss hok
  have hres : resolveStore O { s₁ with now := t₂ } f = (.ok vs, { s₁ with now := t₂ }) :=
    resolveStore_hit O _ f vs hvs
  have hhit : cacheGet { s₁ with now := t₂ } (cacheKeyOf f q h₂.length) = some r := by
    rw [hlen]
    unfold cacheGet
    dsimp only
    rw [hstore]
    dsimp only
    rw [if_pos ht]
  exact ⟨chatWithPdf_cacheHit O _ f q h₂ r vs _ hres hhit, hgen⟩

def chatValueD (x : Except String ChatResult × SysState) : ChatResult :=
  match x.1 with
  | .ok r => r
  | .error _ => { answer := "", sourcePages := [], sources := [] }

set_option maxRecDepth 100000 in
/-- Claim C2, witness: a concrete first call (db-rebuild path, cache miss),
then the same query again 100 seconds later. -/
theorem answer_cache_idempotent_witness :
    chatWithPdf oracleStub
        { (chatWithPdf oracleStub stateC1 "doc1.pdf" "q" []).2 with now := 100 }
        "doc1.pdf" "q" [] =
      (.ok (chatValueD (chatWithPdf oracleStub stateC1 "doc1.pdf" "q" [])),
       { (chatWithPdf oracleStub stateC1 "doc1.pdf" "q" []).2 with now := 100 }) ∧
    (chatWithPdf oracleStub stateC1 "doc1.pdf" "q" []).2.genCalls =
      stateC1.genCalls + 1 :=
  answer_cache_idempotent oracleStub stateC1 "doc1.pdf" "q" [] []
    (chatValueD (chatWithPdf oracleStub stateC1 "doc1.pdf" "q" [])) _ 100
    (by decide) (by decide) rfl (by decide)

/-! ## Claim C3: failures after the cache check write nothing -/

/-- Claim C3: when any step of `chatWithPdf` fails (index resolution,
question embedding and retrieval, or generation), the chat route returns
that error, no cache entry is written (the cache is untouched), and the
document record — hence its chat history — is unchanged. -/
theorem chat_failure_writes_nothing
    (O : Oracles) (s : SysState) (f q : String) (pdf : PdfDoc) (e : String)
    (s₁ : SysState)
    (hdb : lookupA s.db f = some pdf)
    (hfile : (lookupA s.rawFiles
        (normalizePath (uploadsDir ++ "/" ++ pdf.filename))).isNone = false)
    (hfail : chatWithPdf O s pdf.filename q pdf.chatHistory = (.error e, s₁)) :
    chatPost O s f q = (.serverError e, s₁) ∧
    s₁.cache = s.cache ∧ s₁.db = s.db := by
  have hroute : chatPost O s f q = (.serverError e, s₁) := by
    unfold chatPost
    rw [hdb]
    simp only [hfile, Bool.false_eq_true, if_false, hfail]
  refine ⟨hroute, chatWithPdf_error_cache O s pdf.filename q pdf.chatHistory e s₁ hfail, ?_⟩
  obtain ⟨hd, hn, hr⟩ := chatWithPdf_frame O s pdf.filename q pdf.chatHistory _ hfail
  exact hd

/-- A generation service that always fails. -/
def oracleFail : Oracles := { oracleStub with generate := fun _ _ => .error "boom" }

def stateC6 : SysState :=
  { vectorStores := [("doc1.pdf", chunksC1)], cache := [],
    db := [("doc1.pdf", dbDocC1)],
    rawFiles := [("uploads/doc1.pdf", { text := "T", numpages := 1 })],
    now := 5, genCalls := 0, buildCalls := 0 }

/-- Claim C3, witness: a generation failure surfaces as the route error and
leaves cache and database exactly as they were. -/
theorem chat_failure_writes_nothing_witness :
    chatPost oracleFail stateC6 "doc1.pdf" "q" =
      (.serverError "boom",
       (chatWithPdf oracleFail stateC6 "doc1.pdf" "q" dbDocC1.chatHistory).2) ∧
    (chatWithPdf oracleFail stateC6 "doc1.pdf" "q" dbDocC1.chatHistory).2.cache =
      stateC6.cache ∧
    (chatWithPdf oracleFail stateC6 "doc1.pdf" "q" dbDocC1.chatHistory).2.db =
      stateC6.db :=
  chat_failure_writes_nothing oracleFail stateC6 "doc1.pdf" "q" dbDocC1 "boom" _
    (by decide) (by decide) (by decide)

/-! ## Claim C6: the persisted assistant turn -/

def chatPostC6 : RouteResp × SysState := chatPost oracleStub stateC6 "doc1.pdf" "what"

def dbHistory (s : SysState) (f : String) : List ChatTurn :=
  match lookupA s.db f with
  | some d => d.chatHistory
  | none => []

def respSources (r : RouteResp) : List SourceRef :=
  match r with
  | .ok _ _ srcs _ => srcs
  | _ => []

/-- Claim C6, failing run: a successful chat appends exactly two turns in
order — the user turn with the question, then the assistant turn with the
returned `sourcePages` — but the persisted assistant turn carries no
`sources` (the `messageSchema` cast drops the field), even though the route
returned a non-empty `sources` to the client. -/
theorem persisted_assistant_turn_drops_sources :
    (dbHistory chatPostC6.2 "doc1.pdf").map (fun t => t.role) = [.user, .assistant] ∧
    ((dbHistory chatPostC6.2 "doc1.pdf").get? 0).map (fun t => t.content) = some "what" ∧
    ((dbHistory chatPostC6.2 "doc1.pdf").get? 1).map (fun t => t.sourcePages) =
      some [some 1] ∧
    respSources chatPostC6.1 ≠ [] ∧
    ((dbHistory chatPostC6.2 "doc1.pdf").get? 1).map (fun t => t.sources) = some none := by
  decide

/-! ## Claim C7: history enters only through its length -/

/-- Claim C7: `chatWithPdf` reads the chat history only to take its length
for the cache key, so two histories of equal length produce identical
results and identical final states, whatever their contents. -/
theorem answer_depends_only_on_history_length
    (O : Oracles) (s : SysState) (f q : String) (h₁ h₂ : List ChatTurn)
    (hlen : h₁.length = h₂.length) :
    chatWithPdf O s f q h₁ = chatWithPdf O s f q h₂ := by
  unfold chatWithPdf
  rw [hlen]

def turnA : ChatTurn :=
  { role := .user, content := "tell me about alpha", sourcePages := [],
    sources := none, timestamp := 0 }

def turnB : ChatTurn :=
  { role := .assistant, content := "completely different history", sourcePages := [some 7],
    sources := none, timestamp := 99 }

/-- Claim C7, witness: two single-turn histories with different contents
give the same answer. -/
theorem answer_depends_only_on_history_length_witness :
    chatWithPdf oracleStub stateC6 "doc1.pdf" "q" [turnA] =
      chatWithPdf oracleStub stateC6 "doc1.pdf" "q" [turnB] :=
  answer_depends_only_on_history_length oracleStub stateC6 "doc1.pdf" "q"
    [turnA] [turnB] rfl

end ClassMate
